import Mathlib

/-!
Verification development for the four linear-function mini-games in
`src/App.tsx`.  The code is embedded shallowly:

* Every call to `Math.random()` is modelled as reading the next value of a
  rational draw stream `f : ℕ → ℚ`; the predicate `Valid f` records the
  guarantee `0 ≤ f i < 1` that `Math.random()` provides.  Generators thread
  an explicit index into the stream, consuming draws in exactly the order of
  the `Math.random()` calls in the source (including calls that are skipped
  on some control paths, e.g. the conditional draws in the point-check
  question types).
* JS numbers are embedded as `ℤ`/`ℚ`; all divisions in the source
  (`-b/a` for x-intercepts) happen at points where the divisor divides the
  numerand exactly, so `ℤ` division agrees with JS float division there.
* Template strings are built with `++` and `toString` on `ℤ`, which agrees
  with JS number-to-string conversion on the integers produced here
  (`String(-0)` is "0", matching `toString (0 : ℤ)`).
* Component state (`useState`) becomes a record, and each event handler or
  effect body becomes a function from state to state.
-/

/-- A draw stream is valid when every value lies in `[0, 1)`, the range of
`Math.random()`. -/
def Valid (f : ℕ → ℚ) : Prop := ∀ i, 0 ≤ f i ∧ f i < 1

/-- The all-zeros draw stream, used to instantiate universally quantified
theorems at a concrete input. -/
def zeroStream : ℕ → ℚ := fun _ => 0

theorem zeroStream_valid : Valid zeroStream := by
  intro i
  constructor
  · exact le_refl 0
  · norm_num [zeroStream]

theorem floor_mul_nonneg (q c : ℚ) (h0 : 0 ≤ q) (hc : 0 ≤ c) :
    0 ≤ ⌊q * c⌋ := by
  apply Int.le_floor.mpr
  push_cast
  positivity

theorem floor_mul_lt (q c : ℚ) (h1 : q < 1) (hc : 0 < c) (cz : ℤ)
    (hcz : (cz : ℚ) = c) : ⌊q * c⌋ < cz := by
  apply Int.floor_lt.mpr
  rw [hcz]
  nlinarith

/-! ### The shuffle helper

Source (`App.tsx`, lines 35-37):

```js
const shuffleArray = (array) => {
    return [...array].sort(() => Math.random() - 0.5);
};
```

`Array.prototype.sort` with an inconsistent comparator is
implementation-defined by ECMAScript, but is always a comparison sort and
always returns a permutation of the input.  We model it as a stable
insertion sort in which each comparator invocation consumes one draw from
the stream: the comparator returns `Math.random() - 0.5`, which is negative
exactly when the draw is below one half.  Throughout the file the literal
0.5 is written `mkRat 1 2` (definitionally the rational 1/2) because the
Mathlib field operations on `ℚ` do not reduce in the kernel, while `mkRat`
and the order on `ℚ` do — this keeps concrete instances computable.  Each
function returns the result list together with the index of the next
unconsumed draw. -/

def insertC {α : Type} (f : ℕ → ℚ) (x : α) : ℕ → List α → List α × ℕ
  | i, [] => ([x], i)
  | i, y :: ys =>
      if f i < mkRat 1 2 then (x :: y :: ys, i + 1)
      else
        let r := insertC f x (i + 1) ys
        (y :: r.1, r.2)

def sortC {α : Type} (f : ℕ → ℚ) : ℕ → List α → List α × ℕ
  | i, [] => ([], i)
  | i, x :: xs =>
      let r := sortC f i xs
      insertC f x r.2 r.1

/-- Embedding of `shuffleArray`: sort a copy of the array with a random
comparator, threading the draw stream. -/
def shuffleArray {α : Type} (f : ℕ → ℚ) (i : ℕ) (l : List α) : List α × ℕ :=
  sortC f i l

theorem insertC_perm {α : Type} (f : ℕ → ℚ) (x : α) :
    ∀ (i : ℕ) (l : List α), (insertC f x i l).1.Perm (x :: l) := by
  intro i l
  induction l generalizing i with
  | nil => simp [insertC]
  | cons y ys ih =>
      by_cases h : f i < mkRat 1 2
      · simp only [insertC]
        rw [if_pos h]
      · simp only [insertC]
        rw [if_neg h]
        exact ((ih (i+1)).cons y).trans (List.Perm.swap x y ys)

theorem sortC_perm {α : Type} (f : ℕ → ℚ) :
    ∀ (i : ℕ) (l : List α), (sortC f i l).1.Perm l := by
  intro i l
  induction l generalizing i with
  | nil => simp [sortC]
  | cons x xs ih =>
      simp only [sortC]
      exact (insertC_perm f x _ _).trans ((ih i).cons x)

theorem insertC_next_ge {α : Type} (f : ℕ → ℚ) (x : α) :
    ∀ (i : ℕ) (l : List α), i ≤ (insertC f x i l).2 := by
  intro i l
  induction l generalizing i with
  | nil => simp [insertC]
  | cons y ys ih =>
      by_cases h : f i < mkRat 1 2
      · simp only [insertC]
        rw [if_pos h]
        omega
      · simp only [insertC]
        rw [if_neg h]
        have := ih (i+1)
        simp only []
        omega

theorem insertC_next_le {α : Type} (f : ℕ → ℚ) (x : α) :
    ∀ (i : ℕ) (l : List α), (insertC f x i l).2 ≤ i + l.length := by
  intro i l
  induction l generalizing i with
  | nil => simp [insertC]
  | cons y ys ih =>
      by_cases h : f i < mkRat 1 2
      · simp only [insertC]
        rw [if_pos h]
        simp only [List.length_cons]
        omega
      · simp only [insertC]
        rw [if_neg h]
        have := ih (i+1)
        simp only [List.length_cons]
        omega

theorem sortC_length {α : Type} (f : ℕ → ℚ) (i : ℕ) (l : List α) :
    (sortC f i l).1.length = l.length :=
  (sortC_perm f i l).length_eq

theorem sortC_next_ge {α : Type} (f : ℕ → ℚ) :
    ∀ (i : ℕ) (l : List α), i ≤ (sortC f i l).2 := by
  intro i l
  induction l generalizing i with
  | nil => simp [sortC]
  | cons x xs ih =>
      simp only [sortC]
      have h1 := ih i
      have h2 := insertC_next_ge f x (sortC f i xs).2 (sortC f i xs).1
      omega

theorem sortC_next_le {α : Type} (f : ℕ → ℚ) :
    ∀ (i : ℕ) (l : List α), (sortC f i l).2 ≤ i + l.length * l.length := by
  intro i l
  induction l generalizing i with
  | nil => simp [sortC]
  | cons x xs ih =>
      simp only [sortC]
      have h1 := ih i
      have h2 := insertC_next_le f x (sortC f i xs).2 (sortC f i xs).1
      have h3 := sortC_length f i xs
      simp only [List.length_cons]
      nlinarith

theorem insertC_agree {α : Type} (f g : ℕ → ℚ) (x : α) :
    ∀ (i : ℕ) (l : List α),
      (∀ j, i ≤ j → j < i + l.length → f j = g j) →
      insertC f x i l = insertC g x i l := by
  intro i l
  induction l generalizing i with
  | nil => intro _; simp [insertC]
  | cons y ys ih =>
      intro h
      have h0 : f i = g i := h i le_rfl (by simp only [List.length_cons]; omega)
      simp only [insertC, h0]
      by_cases hg : g i < mkRat 1 2
      · rw [if_pos hg, if_pos hg]
      · rw [if_neg hg, if_neg hg]
        have := ih (i+1) (by
          intro j hj1 hj2
          exact h j (by omega) (by simp only [List.length_cons]; omega))
        rw [this]

theorem sortC_agree {α : Type} (f g : ℕ → ℚ) :
    ∀ (i : ℕ) (l : List α),
      (∀ j, i ≤ j → j < i + l.length * l.length → f j = g j) →
      sortC f i l = sortC g i l := by
  intro i l
  induction l generalizing i with
  | nil => intro _; simp [sortC]
  | cons x xs ih =>
      intro h
      have hlen : xs.length * xs.length + xs.length <
          (x :: xs).length * (x :: xs).length := by
        simp only [List.length_cons]
        nlinarith
      have hxs : sortC f i xs = sortC g i xs := by
        apply ih
        intro j hj1 hj2
        exact h j hj1 (by omega)
      simp only [sortC, hxs]
      apply insertC_agree
      intro j hj1 hj2
      have hge := sortC_next_ge g i xs
      have hle := sortC_next_le g i xs
      have hl := sortC_length g i xs
      apply h j (by omega)
      omega

theorem sortC_agree_bound {α : Type} (f g : ℕ → ℚ) (i B : ℕ) (l : List α)
    (hb : l.length * l.length ≤ B)
    (h : ∀ j, i ≤ j → j < i + B → f j = g j) :
    sortC f i l = sortC g i l := by
  apply sortC_agree
  intro j hj1 hj2
  exact h j hj1 (by omega)

/-- Embedding of `Array.prototype.indexOf` on string arrays: the index of the
first occurrence, `-1` when absent. -/
def jsIndexOf (l : List String) (s : String) : ℤ :=
  match l with
  | [] => -1
  | x :: xs =>
      if x = s then 0
      else
        let r := jsIndexOf xs s
        if r < 0 then -1 else r + 1

/-- Default string for list indexing (the empty string). -/
def noStr : String := String.mk []

theorem jsIndexOf_spec (s : String) :
    ∀ l : List String, s ∈ l →
      0 ≤ jsIndexOf l s ∧ (jsIndexOf l s).toNat < l.length ∧
        l.getD (jsIndexOf l s).toNat noStr = s := by
  intro l
  induction l with
  | nil => intro h; cases h
  | cons x xs ih =>
      intro hmem
      by_cases hx : x = s
      · refine ⟨by simp [jsIndexOf, hx], ?_, ?_⟩
        · simp [jsIndexOf, hx]
        · simp [jsIndexOf, hx]
      · have hxs : s ∈ xs := by
          rcases List.mem_cons.mp hmem with h | h
          · exact absurd h.symm hx
          · exact h
        obtain ⟨h1, h2, h3⟩ := ih hxs
        have hr : ¬ jsIndexOf xs s < 0 := by omega
        refine ⟨?_, ?_, ?_⟩
        · simp only [jsIndexOf, hx, if_false, hr]
          omega
        · simp only [jsIndexOf, hx, if_false, hr, List.length_cons]
          omega
        · simp only [jsIndexOf, hx, if_false, hr]
          have htn : (jsIndexOf xs s + 1).toNat = (jsIndexOf xs s).toNat + 1 := by
            omega
          rw [htn]
          simpa using h3

/-! ### Game 1: Điền bảng giá trị nhanh (`DienBangGiaTriNhanh`)

`generateQuestion` (lines 214-224) draws `a ∈ [-9,9] \ {0}` (the `|| 1`
replaces a zero by 1), `b ∈ [-9,9]`, `x ∈ [-5,5]` and stores
`y = a*x + b`. -/

structure Q1 where
  a : ℤ
  b : ℤ
  x : ℤ
  y : ℤ
deriving DecidableEq, Inhabited

def gen1 (f : ℕ → ℚ) : Q1 :=
  let a0 := ⌊f 0 * 19⌋ - 9
  let a := if a0 = 0 then 1 else a0
  let b := ⌊f 1 * 19⌋ - 9
  let x := ⌊f 2 * 11⌋ - 5
  { a := a, b := b, x := x, y := a * x + b }

/-- Component state of game 1.  `inputValue` models the result of
`parseInt(inputValue, 10)` on the text field (`none` is `NaN`, which compares
unequal to every number).  `nextScheduled` models the
`setTimeout(generateQuestion, 3000)` issued at the end of `handleSubmit`. -/
structure G1State where
  question : Q1
  score : ℕ
  timeLeft : ℕ
  inputValue : Option ℤ
  isAnswered : Bool
  nextScheduled : Bool
deriving DecidableEq

/-- Embedding of `handleSubmit` (lines 240-255): a no-op when already
answered; otherwise the answer is judged correct exactly when the submission
is not a timeout and the parsed input equals the stored `y`. -/
def handleSubmit (isTimeout : Bool) (s : G1State) : G1State :=
  if s.isAnswered then s
  else
    let isCorrect := !isTimeout && decide (s.inputValue = some s.question.y)
    { s with
        isAnswered := true
        score := if isCorrect then s.score + 10 else s.score
        nextScheduled := true }

/-- Embedding of the countdown effect (lines 230-238): while unanswered the
timer decrements once per tick, and at zero it forces
`handleSubmit(true)`. -/
def tick1 (s : G1State) : G1State :=
  if s.isAnswered then s
  else if 0 < s.timeLeft then { s with timeLeft := s.timeLeft - 1 }
  else handleSubmit true s

/-! ### The feedback adapter (`useAIFeedback.getFeedback`, lines 53-74)

The remote call is abstracted by its outcome: `Except Unit String` is
`.ok text` on success and `.error ()` when the promise rejects.  `hasKey`
is whether `VITE_API_KEY` was configured (line 45).  The returned record is
the value passed to `setFeedback`; the function is total — no error
escapes it. -/

structure FeedbackState where
  message : String
  ftype : String
deriving DecidableEq

def correctFallback : String := "Chính xác! Làm tốt lắm!"

def incorrectFallback : String := "Không đúng rồi. Cố gắng lại nhé!"

def getFeedback (hasKey : Bool) (remote : Except Unit String)
    (ftype : String) : FeedbackState :=
  if !hasKey then
    { message := if ftype = "correct" then correctFallback else incorrectFallback
      ftype := ftype }
  else
    match remote with
    | .ok text => { message := text, ftype := ftype }
    | .error _ =>
        { message := if ftype = "correct" then correctFallback else incorrectFallback
          ftype := ftype }

/-! ### Game 2: Tìm tọa độ ẩn (`TimToaDoAn`)

`generateQuestion` (lines 287-326) draws `a ∈ ±[1,5]`, `b = ±(a·k)` with
`k ∈ [1,5]`.  The `do … while (b === 0)` loop body runs exactly once for
valid draws, since `b = ±(a·k) ≠ 0` (theorem `gen2_b_ne_zero`); the
embedding therefore unrolls it once.  `qtype`, `px`, `py` are ghost fields
recording the chosen `questionType` and, for the point-check case, the `x`
and `pointY` values that the source interpolates into `promptText`. -/

structure Q2 where
  a : ℤ
  b : ℤ
  options : List String
  answer : String
  promptText : String
  qtype : ℤ
  px : ℤ
  py : ℤ
deriving DecidableEq, Inhabited

def q2prompt0 : String := "Đồ thị hàm số cắt trục tung (trục Oy) tại điểm nào?"

def q2prompt1 : String := "Đồ thị hàm số cắt trục hoành (trục Ox) tại điểm nào?"

def gen2 (f : ℕ → ℚ) : Q2 :=
  let a := (⌊f 0 * 5⌋ + 1) * (if f 1 < mkRat 1 2 then 1 else -1)
  let b0 := a * (⌊f 2 * 5⌋ + 1)
  let b := if f 3 < mkRat 1 2 then -b0 else b0
  let t := ⌊f 4 * 3⌋
  if t = 0 then
    let answer := "(0, " ++ toString b ++ ")"
    { a := a, b := b
      options := (shuffleArray f 5 [answer, "(" ++ toString b ++ ", 0)",
        "(0, " ++ toString a ++ ")", "(" ++ toString a ++ ", 0)"]).1
      answer := answer
      promptText := q2prompt0
      qtype := 0, px := 0, py := 0 }
  else if t = 1 then
    let xint := -b / a
    let answer := "(" ++ toString xint ++ ", 0)"
    { a := a, b := b
      options := (shuffleArray f 5 [answer, "(0, " ++ toString b ++ ")",
        "(0, " ++ toString xint ++ ")", "(0, " ++ toString a ++ ")"]).1
      answer := answer
      promptText := q2prompt1
      qtype := 1, px := 0, py := 0 }
  else
    let x := ⌊f 5 * 11⌋ - 5
    let y := a * x + b
    let isOn := f 6 < mkRat 1 2
    let pointY := if isOn then y
      else y + (if f 7 < mkRat 1 2 then 1 else -1) * (⌊f 8 * 2⌋ + 1)
    { a := a, b := b
      options := ["Có", "Không"]
      answer := if isOn then "Có" else "Không"
      promptText := "Điểm M(" ++ toString x ++ ", " ++ toString pointY ++
        ") có thuộc đồ thị hàm số không?"
      qtype := 2, px := x, py := pointY }

/-- Component state shared by the two untimed multiple-choice games
(games 2 and 3): score, lockout flag and highlighted selection. -/
structure MCState where
  score : ℕ
  isAnswered : Bool
  selectedOption : Option String
deriving DecidableEq

/-- Embedding of game 2's `handleAnswer` (lines 330-343). -/
def handleAnswer2 (q : Q2) (opt : String) (s : MCState) : MCState :=
  if s.isAnswered then s
  else
    { score := if opt = q.answer then s.score + 10 else s.score
      isAnswered := true
      selectedOption := some opt }

/-! ### Game 3: Đoán tham số & Thuộc tính (`DoanThamSo`)

`generateQuestion` (lines 389-431) draws `a, b ∈ ±[1,5]`.  Wrong options in
the guess-the-equation case go through a JS `Set`, which deduplicates while
preserving insertion order; `dedupAdd` mirrors `Set.prototype.add`. -/

def formatEquation (a b : ℤ) : String :=
  "y = " ++ toString a ++ "x " ++
    (if 0 ≤ b then "+ " ++ toString b else "- " ++ toString (-b))

def dedupAdd (l : List String) (s : String) : List String :=
  if s ∈ l then l else l ++ [s]

structure Q3 where
  a : ℤ
  b : ℤ
  options : List String
  answer : String
  promptText : String
  qtype : ℤ
deriving DecidableEq, Inhabited

def q3prompt0 : String := "Đồ thị trên tương ứng với phương trình nào?"

def q3prompt1 : String :=
  "Hàm số được biểu diễn bởi đồ thị này đồng biến hay nghịch biến?"

def q3prompt2 : String := "Xác định dấu của các tham số a và b."

def signOption (sa sb : String) : String :=
  "a " ++ sa ++ " 0, b " ++ sb ++ " 0"

/-- Insertion order of `allSignOptions` (outer loop over the sign of `a`,
inner loop over the sign of `b`); the four strings are distinct so the JS
`Set` keeps all of them. -/
def allSignOptions : List String :=
  dedupAdd (dedupAdd (dedupAdd (dedupAdd []
    (signOption ">" ">")) (signOption ">" "<"))
    (signOption "<" ">")) (signOption "<" "<")

def gen3 (f : ℕ → ℚ) : Q3 :=
  let a := (⌊f 0 * 5⌋ + 1) * (if f 1 < mkRat 1 2 then 1 else -1)
  let b := (⌊f 2 * 5⌋ + 1) * (if f 3 < mkRat 1 2 then 1 else -1)
  let t := ⌊f 4 * 3⌋
  if t = 0 then
    let answer := formatEquation a b
    let w3 := dedupAdd (dedupAdd (dedupAdd [] (formatEquation (-a) b))
      (formatEquation a (-b))) (formatEquation (-a) (-b))
    let w4 := if w3.length < 3 then dedupAdd w3 (formatEquation (a*2) b) else w3
    { a := a, b := b
      options := (shuffleArray f 5 (answer :: w4.take 3)).1
      answer := answer
      promptText := q3prompt0
      qtype := 0 }
  else if t = 1 then
    { a := a, b := b
      options := ["Đồng biến", "Nghịch biến"]
      answer := if 0 < a then "Đồng biến" else "Nghịch biến"
      promptText := q3prompt1
      qtype := 1 }
  else
    { a := a, b := b
      options := (shuffleArray f 5 allSignOptions).1
      answer := signOption (if 0 < a then ">" else "<") (if 0 < b then ">" else "<")
      promptText := q3prompt2
      qtype := 2 }

/-- Embedding of game 3's `handleAnswer` (lines 435-448); identical in shape
to game 2's. -/
def handleAnswer3 (q : Q3) (opt : String) (s : MCState) : MCState :=
  if s.isAnswered then s
  else
    { score := if opt = q.answer then s.score + 10 else s.score
      isAnswered := true
      selectedOption := some opt }

/-! ### Game 4: Ai nhanh hơn (`AiNhanhHon`)

`generateQuiz` (lines 492-549) pre-generates 10 questions.  Each question
stores `prompt`, `options` and `answerIndex`; `qa`, `qb`, `qtype`, `px`,
`py`, `bDiff` are ghost fields recording the generator's local variables
(for question type 4 the regenerated coefficients). -/

structure QuizQ where
  prompt : String
  options : List String
  answerIndex : ℤ
  qa : ℤ
  qb : ℤ
  qtype : ℤ
  px : ℤ
  py : ℤ
  bDiff : ℤ
deriving DecidableEq, Inhabited

def quizQText (a b : ℤ) : String := "Cho hàm số " ++ formatEquation a b ++ "."

/-- Generate one quiz question starting at draw index `i`; returns the
question and the index of the next unconsumed draw. -/
def genQuizQ (f : ℕ → ℚ) (i : ℕ) : QuizQ × ℕ :=
  let a := (⌊f i * 5⌋ + 1) * (if f (i+1) < mkRat 1 2 then 1 else -1)
  let b := ⌊f (i+2) * 9⌋ - 4
  let questionText := quizQText a b
  let t := ⌊f (i+3) * 5⌋
  if t = 0 then
    ({ prompt := questionText ++ " Hàm số này đồng biến hay nghịch biến?"
       options := ["Đồng biến", "Nghịch biến"]
       answerIndex := if 0 < a then 0 else 1
       qa := a, qb := b, qtype := 0, px := 0, py := 0, bDiff := 0 }, i+4)
  else if t = 1 then
    let correct := "(0, " ++ toString b ++ ")"
    let r := shuffleArray f (i+4) [correct, "(" ++ toString b ++ ", 0)",
      "(0, " ++ toString a ++ ")", "(0, " ++ toString (-b) ++ ")"]
    ({ prompt := questionText ++ " Đồ thị cắt trục tung tại điểm nào?"
       options := r.1
       answerIndex := jsIndexOf r.1 correct
       qa := a, qb := b, qtype := 1, px := 0, py := 0, bDiff := 0 }, r.2)
  else if t = 2 then
    let x := ⌊f (i+4) * 5⌋ + 1
    let y := a * x + b
    let isOn := f (i+5) < mkRat 1 2
    if isOn then
      ({ prompt := questionText ++ " Điểm M(" ++ toString x ++ ", " ++
           toString y ++ ") có thuộc đồ thị không?"
         options := ["Có", "Không"]
         answerIndex := 0
         qa := a, qb := b, qtype := 2, px := x, py := y, bDiff := 0 }, i+6)
    else
      let pointY := y + (if f (i+6) < mkRat 1 2 then 1 else -1)
      ({ prompt := questionText ++ " Điểm M(" ++ toString x ++ ", " ++
           toString pointY ++ ") có thuộc đồ thị không?"
         options := ["Có", "Không"]
         answerIndex := 1
         qa := a, qb := b, qtype := 2, px := x, py := pointY, bDiff := 0 }, i+7)
  else if t = 3 then
    let bd0 := b + (if f (i+4) < mkRat 1 2 then 1 else -1) * (⌊f (i+5) * 3⌋ + 1)
    let bDiff := if bd0 = 0 then b + 1 else bd0
    let correct := formatEquation a bDiff
    let r := shuffleArray f (i+6) [correct, formatEquation (-a) b,
      formatEquation a b,
      "y = " ++ toString (a+1) ++ "x " ++
        (if 0 ≤ b then "+ " ++ toString bDiff else "- " ++ toString |bDiff|)]
    ({ prompt := questionText ++ " Đường thẳng nào sau đây song song với nó?"
       options := r.1
       answerIndex := jsIndexOf r.1 correct
       qa := a, qb := b, qtype := 3, px := 0, py := 0, bDiff := bDiff }, r.2)
  else
    let a2 := (⌊f (i+4) * 4⌋ + 1) * (if f (i+5) < mkRat 1 2 then 1 else -1)
    let b2 := a2 * (⌊f (i+6) * 4⌋ + 1) * (if f (i+7) < mkRat 1 2 then 1 else -1)
    let xint := -b2 / a2
    let correct := "(" ++ toString xint ++ ", 0)"
    let r := shuffleArray f (i+8) [correct, "(0, " ++ toString b2 ++ ")",
      "(0, " ++ toString xint ++ ")", "(" ++ toString b2 ++ ", 0)"]
    ({ prompt := quizQText a2 b2 ++ " Đồ thị cắt trục hoành tại điểm nào?"
       options := r.1
       answerIndex := jsIndexOf r.1 correct
       qa := a2, qb := b2, qtype := 4, px := 0, py := 0, bDiff := 0 }, r.2)

def genQuizAux (f : ℕ → ℚ) : ℕ → ℕ → List QuizQ × ℕ
  | i, 0 => ([], i)
  | i, n+1 =>
      let r := genQuizQ f i
      let rest := genQuizAux f r.2 n
      (r.1 :: rest.1, rest.2)

/-- Embedding of `generateQuiz`: ten questions drawn in sequence. -/
def generateQuiz (f : ℕ → ℚ) : List QuizQ :=
  (genQuizAux f 0 10).1

/-- Component state of game 4. -/
structure G4State where
  questions : List QuizQ
  currentQIndex : ℕ
  score : ℕ
  timeLeft : ℕ
  isAnswered : Bool
  selectedOption : Option ℤ
  isGameOver : Bool
deriving DecidableEq

def initG4 (qs : List QuizQ) : G4State :=
  { questions := qs, currentQIndex := 0, score := 0, timeLeft := 15
    isAnswered := false, selectedOption := none, isGameOver := false }

/-- Embedding of `handleAnswer` (lines 589-597): locked out once answered;
`+10` exactly when the chosen index equals the stored `answerIndex`. -/
def handleAnswer4 (k : ℤ) (s : G4State) : G4State :=
  if s.isAnswered then s
  else
    { s with
        isAnswered := true
        selectedOption := some k
        score :=
          if k = (s.questions.getD s.currentQIndex default).answerIndex
          then s.score + 10 else s.score }

/-- Embedding of `nextQuestion` (lines 575-587): advance the index or, on
the last question, enter the terminal game-over state. -/
def nextQuestion4 (s : G4State) : G4State :=
  if s.currentQIndex < s.questions.length - 1 then
    { s with
        currentQIndex := s.currentQIndex + 1
        isAnswered := false
        selectedOption := none
        timeLeft := 15 }
  else { s with isGameOver := true }

/-- Events of game 4.  `advance` is the `setTimeout(nextQuestion, 1500)`
scheduled by `handleAnswer`; `reset` is the "Chơi lại" button, carrying the
freshly generated question list. -/
inductive G4Ev where
  | answer (k : ℤ)
  | tick
  | advance
  | reset (qs : List QuizQ)

/-- One step of the game-4 state machine.  Guards mirror the source: in the
game-over state only the reset button is rendered (lines 601-613), so
`answer` events cannot occur there; the timer effect returns immediately
when `isGameOver || isAnswered` (line 566); `advance` only fires as the
single timeout scheduled by a `handleAnswer` call (line 596), hence only in
an answered, non-game-over state.  `reset` re-runs `resetGame`
(lines 551-559). -/
def stepG4 : G4Ev → G4State → G4State
  | .answer k, s => if s.isGameOver then s else handleAnswer4 k s
  | .tick, s =>
      if s.isGameOver || s.isAnswered then s
      else if 0 < s.timeLeft then { s with timeLeft := s.timeLeft - 1 }
      else handleAnswer4 (-1) s
  | .advance, s => if s.isAnswered && !s.isGameOver then nextQuestion4 s else s
  | .reset qs, _ => initG4 qs

/-- The number of correct answers displayed on the results screen
(line 606): `score / 10`. -/
def quizNumCorrect (s : G4State) : ℕ := s.score / 10

/-! ### Draw-consumption bounds and determinism lemmas -/

theorem genQuizQ_next (f : ℕ → ℚ) (i : ℕ) :
    i + 4 ≤ (genQuizQ f i).2 ∧ (genQuizQ f i).2 ≤ i + 24 := by
  simp only [genQuizQ, shuffleArray]
  split_ifs <;> dsimp only <;>
    first
    | (constructor <;> omega)
    | exact ⟨le_trans (by omega) (sortC_next_ge f _ _),
        le_trans (sortC_next_le f _ _)
          (by simp only [List.length_cons, List.length_nil]; omega)⟩

theorem gen1_agree (f g : ℕ → ℚ) (h : ∀ j, j < 3 → f j = g j) :
    gen1 f = gen1 g := by
  have e0 : f 0 = g 0 := h 0 (by omega)
  have e1 : f 1 = g 1 := h 1 (by omega)
  have e2 : f 2 = g 2 := h 2 (by omega)
  simp only [gen1, e0, e1, e2]

theorem gen3_agree (f g : ℕ → ℚ) (h : ∀ j, j < 21 → f j = g j) :
    gen3 f = gen3 g := by
  have e0 : f 0 = g 0 := h 0 (by omega)
  have e1 : f 1 = g 1 := h 1 (by omega)
  have e2 : f 2 = g 2 := h 2 (by omega)
  have e3 : f 3 = g 3 := h 3 (by omega)
  have e4 : f 4 = g 4 := h 4 (by omega)
  have hsA : ∀ (x : String) (w : List String),
      sortC f 5 (x :: List.take 3 w) = sortC g 5 (x :: List.take 3 w) := by
    intro x w
    apply sortC_agree
    intro j hj1 hj2
    apply h j
    have hlen : (x :: List.take 3 w).length ≤ 4 := by
      simp only [List.length_cons, List.length_take]
      omega
    have := Nat.mul_le_mul hlen hlen
    omega
  have hsB : sortC f 5 allSignOptions = sortC g 5 allSignOptions := by
    apply sortC_agree
    intro j hj1 hj2
    apply h j
    have hlen : allSignOptions.length = 4 := by decide
    rw [hlen] at hj2
    omega
  simp only [gen3, shuffleArray, e0, e1, e2, e3, e4, hsA, hsB]

theorem genQuizQ_agree (f g : ℕ → ℚ) (i : ℕ)
    (h : ∀ j, i ≤ j → j < i + 24 → f j = g j) :
    genQuizQ f i = genQuizQ g i := by
  have e0 : f i = g i := h i le_rfl (by omega)
  have e1 : f (i+1) = g (i+1) := h _ (by omega) (by omega)
  have e2 : f (i+2) = g (i+2) := h _ (by omega) (by omega)
  have e3 : f (i+3) = g (i+3) := h _ (by omega) (by omega)
  have e4 : f (i+4) = g (i+4) := h _ (by omega) (by omega)
  have e5 : f (i+5) = g (i+5) := h _ (by omega) (by omega)
  have e6 : f (i+6) = g (i+6) := h _ (by omega) (by omega)
  have e7 : f (i+7) = g (i+7) := h _ (by omega) (by omega)
  have hs4 : ∀ s1 s2 s3 s4 : String,
      sortC f (i+4) [s1, s2, s3, s4] = sortC g (i+4) [s1, s2, s3, s4] := by
    intro s1 s2 s3 s4
    apply sortC_agree
    intro j hj1 hj2
    simp only [List.length_cons, List.length_nil] at hj2
    exact h j (by omega) (by omega)
  have hs6 : ∀ s1 s2 s3 s4 : String,
      sortC f (i+6) [s1, s2, s3, s4] = sortC g (i+6) [s1, s2, s3, s4] := by
    intro s1 s2 s3 s4
    apply sortC_agree
    intro j hj1 hj2
    simp only [List.length_cons, List.length_nil] at hj2
    exact h j (by omega) (by omega)
  have hs8 : ∀ s1 s2 s3 s4 : String,
      sortC f (i+8) [s1, s2, s3, s4] = sortC g (i+8) [s1, s2, s3, s4] := by
    intro s1 s2 s3 s4
    apply sortC_agree
    intro j hj1 hj2
    simp only [List.length_cons, List.length_nil] at hj2
    exact h j (by omega) (by omega)
  simp only [genQuizQ, shuffleArray, e0, e1, e2, e3, e4, e5, e6, e7,
    hs4, hs6, hs8]

theorem genQuizAux_agree (f g : ℕ → ℚ) :
    ∀ (n i : ℕ), (∀ j, i ≤ j → j < i + 24 * n → f j = g j) →
      genQuizAux f i n = genQuizAux g i n := by
  intro n
  induction n with
  | zero => intro i _; rfl
  | succ n ih =>
      intro i h
      have hq : genQuizQ f i = genQuizQ g i :=
        genQuizQ_agree f g i (fun j hj1 hj2 => h j hj1 (by omega))
      have hb := genQuizQ_next g i
      have hrest : genQuizAux f (genQuizQ g i).2 n =
          genQuizAux g (genQuizQ g i).2 n := by
        apply ih
        intro j hj1 hj2
        refine h j (by omega) (by omega)
      simp only [genQuizAux, hq, hrest]

theorem generateQuiz_agree (f g : ℕ → ℚ) (h : ∀ j, j < 240 → f j = g j) :
    generateQuiz f = generateQuiz g := by
  unfold generateQuiz
  rw [genQuizAux_agree f g 10 0 (fun j hj1 hj2 => h j (by omega))]

/-! ### Per-question correctness of the quiz generator -/

/-- The correct answer of a quiz question, recomputed from the stored
coefficients (and stored point, for the membership question type). -/
def quizCorrectString (q : QuizQ) : String :=
  if q.qtype = 0 then (if 0 < q.qa then "Đồng biến" else "Nghịch biến")
  else if q.qtype = 1 then "(0, " ++ toString q.qb ++ ")"
  else if q.qtype = 2 then
    (if q.py = q.qa * q.px + q.qb then "Có" else "Không")
  else if q.qtype = 3 then formatEquation q.qa q.bDiff
  else "(" ++ toString (-q.qb / q.qa) ++ ", 0)"

/-- Soundness bundle for a generated quiz question: the slope is nonzero,
the x-intercept division is exact, a parallel distractor's intercept really
differs, the recorded `answerIndex` is a real position, and the option at
that position is the recomputed correct answer. -/
def QuizQProps (q : QuizQ) : Prop :=
  q.qa ≠ 0 ∧
  (q.qtype = 4 → q.qa ∣ q.qb) ∧
  (q.qtype = 3 → q.bDiff ≠ q.qb) ∧
  0 ≤ q.answerIndex ∧
  q.answerIndex.toNat < q.options.length ∧
  q.options.getD q.answerIndex.toNat noStr = quizCorrectString q ∧
  (q.qtype = 4 → q.qa * (-q.qb / q.qa) + q.qb = 0)

theorem shuffled_head_props (f : ℕ → ℚ) (j : ℕ) (c : String)
    (rest : List String) :
    0 ≤ jsIndexOf (sortC f j (c :: rest)).1 c ∧
    (jsIndexOf (sortC f j (c :: rest)).1 c).toNat <
      (sortC f j (c :: rest)).1.length ∧
    (sortC f j (c :: rest)).1.getD
      (jsIndexOf (sortC f j (c :: rest)).1 c).toNat noStr = c := by
  have hmem : c ∈ (sortC f j (c :: rest)).1 :=
    (sortC_perm f j (c :: rest)).mem_iff.mpr (List.mem_cons_self c rest)
  exact jsIndexOf_spec c _ hmem

theorem genQuizQ_props (f : ℕ → ℚ) (hf : Valid f) (i : ℕ) :
    QuizQProps (genQuizQ f i).1 := by
  obtain ⟨hi0, hi1⟩ := hf i
  obtain ⟨h4a, h4b⟩ := hf (i+4)
  obtain ⟨h5a, h5b⟩ := hf (i+5)
  obtain ⟨h6a, h6b⟩ := hf (i+6)
  have hA : 1 ≤ ⌊f i * 5⌋ + 1 := by
    have := floor_mul_nonneg (f i) 5 hi0 (by norm_num)
    omega
  have ha : ((⌊f i * 5⌋ + 1) * (if f (i+1) < mkRat 1 2 then 1 else -1)) ≠ 0 := by
    split_ifs <;> omega
  by_cases ht0 : ⌊f (i+3) * 5⌋ = 0
  · simp only [genQuizQ, shuffleArray, if_pos ht0]
    refine ⟨ha, by intro hcon; simp at hcon, by intro hcon; simp at hcon,
      ?_, ?_, ?_, by intro hcon; simp at hcon⟩
    · split_ifs <;> simp
    · split_ifs <;> simp
    · simp only [quizCorrectString]
      split_ifs <;> simp_all
  · by_cases ht1 : ⌊f (i+3) * 5⌋ = 1
    · simp only [genQuizQ, shuffleArray, if_neg ht0, if_pos ht1]
      refine ⟨ha, by intro hcon; simp at hcon, by intro hcon; simp at hcon,
        ?_, ?_, ?_, by intro hcon; simp at hcon⟩
      · exact (shuffled_head_props f (i+4) _ _).1
      · exact (shuffled_head_props f (i+4) _ _).2.1
      · exact ((shuffled_head_props f (i+4) _ _).2.2).trans
          (by simp [quizCorrectString])
    · by_cases ht2 : ⌊f (i+3) * 5⌋ = 2
      · by_cases hOn : f (i+5) < mkRat 1 2
        · simp only [genQuizQ, shuffleArray, if_neg ht0, if_neg ht1,
            if_pos ht2, if_pos hOn]
          refine ⟨ha, by intro hcon; simp at hcon, by intro hcon; simp at hcon,
            by simp, by simp, ?_, by intro hcon; simp at hcon⟩
          simp [quizCorrectString]
        · by_cases hs : f (i+6) < mkRat 1 2
          · simp only [genQuizQ, shuffleArray, if_neg ht0, if_neg ht1,
              if_pos ht2, if_neg hOn, if_pos hs]
            refine ⟨ha, by intro hcon; simp at hcon,
              by intro hcon; simp at hcon,
              by simp, by simp, ?_, by intro hcon; simp at hcon⟩
            simp only [quizCorrectString]
            norm_num
          · simp only [genQuizQ, shuffleArray, if_neg ht0, if_neg ht1,
              if_pos ht2, if_neg hOn, if_neg hs]
            refine ⟨ha, by intro hcon; simp at hcon,
              by intro hcon; simp at hcon,
              by simp, by simp, ?_, by intro hcon; simp at hcon⟩
            simp only [quizCorrectString]
            norm_num
      · by_cases ht3 : ⌊f (i+3) * 5⌋ = 3
        · simp only [genQuizQ, shuffleArray, if_neg ht0, if_neg ht1,
            if_neg ht2, if_pos ht3]
          have hm : 1 ≤ ⌊f (i+5) * 3⌋ + 1 := by
            have := floor_mul_nonneg (f (i+5)) 3 h5a (by norm_num)
            omega
          refine ⟨ha, by intro hcon; simp at hcon, ?_,
            ?_, ?_, ?_, by intro hcon; simp at hcon⟩
          · intro _
            dsimp only
            split_ifs <;> omega
          · exact (shuffled_head_props f (i+6) _ _).1
          · exact (shuffled_head_props f (i+6) _ _).2.1
          · exact ((shuffled_head_props f (i+6) _ _).2.2).trans
              (by simp [quizCorrectString])
        · simp only [genQuizQ, shuffleArray, if_neg ht0, if_neg ht1,
            if_neg ht2, if_neg ht3]
          have hA2 : 1 ≤ ⌊f (i+4) * 4⌋ + 1 := by
            have := floor_mul_nonneg (f (i+4)) 4 h4a (by norm_num)
            omega
          have ha2 : ((⌊f (i+4) * 4⌋ + 1) *
              (if f (i+5) < mkRat 1 2 then 1 else -1)) ≠ 0 := by
            split_ifs <;> omega
          have hdvd : ((⌊f (i+4) * 4⌋ + 1) * (if f (i+5) < mkRat 1 2 then 1 else -1)) ∣
              (((⌊f (i+4) * 4⌋ + 1) * (if f (i+5) < mkRat 1 2 then 1 else -1)) *
                (⌊f (i+6) * 4⌋ + 1) * (if f (i+7) < mkRat 1 2 then 1 else -1)) :=
            ⟨(⌊f (i+6) * 4⌋ + 1) * (if f (i+7) < mkRat 1 2 then 1 else -1), by ring⟩
          refine ⟨ha2, by intro _; exact hdvd,
            by intro hcon; simp at hcon, ?_, ?_, ?_, ?_⟩
          · exact (shuffled_head_props f (i+8) _ _).1
          · exact (shuffled_head_props f (i+8) _ _).2.1
          · exact ((shuffled_head_props f (i+8) _ _).2.2).trans
              (by simp [quizCorrectString])
          · intro _
            have hd2 := (dvd_neg).mpr hdvd
            have hcancel := Int.mul_ediv_cancel' hd2
            dsimp only
            linarith [hcancel]

theorem genQuizAux_props (f : ℕ → ℚ) (hf : Valid f) :
    ∀ (n i : ℕ), ∀ q ∈ (genQuizAux f i n).1, QuizQProps q := by
  intro n
  induction n with
  | zero => intro i q hq; cases hq
  | succ n ih =>
      intro i q hq
      simp only [genQuizAux] at hq
      rcases List.mem_cons.mp hq with h | h
      · exact h ▸ genQuizQ_props f hf i
      · exact ih _ q h

theorem generateQuiz_props (f : ℕ → ℚ) (hf : Valid f) :
    ∀ q ∈ generateQuiz f, QuizQProps q :=
  fun q hq => genQuizAux_props f hf 10 0 q hq

theorem genQuizAux_length (f : ℕ → ℚ) :
    ∀ (n i : ℕ), (genQuizAux f i n).1.length = n := by
  intro n
  induction n with
  | zero => intro i; rfl
  | succ n ih => intro i; simp [genQuizAux, ih]

theorem generateQuiz_length (f : ℕ → ℚ) : (generateQuiz f).length = 10 :=
  genQuizAux_length f 10 0

/-! ### Soundness of the game-2 generator -/

/-- Soundness bundle for a game-2 question: the do-while loop terminates at
once (`b ≠ 0`), the slope is nonzero and divides `b` (so the x-intercept
division is exact), the stored answer can be recomputed from the stored
coefficients, and it occurs among the options. -/
def Q2Props (q : Q2) : Prop :=
  q.a ≠ 0 ∧ q.b ≠ 0 ∧ q.a ∣ q.b ∧ q.answer ∈ q.options ∧
  (q.qtype = 0 → q.answer = "(0, " ++ toString q.b ++ ")") ∧
  (q.qtype = 1 → q.answer = "(" ++ toString (-q.b / q.a) ++ ", 0)" ∧
    q.a * (-q.b / q.a) + q.b = 0) ∧
  (q.qtype = 2 → (q.answer = "Có" ↔ q.py = q.a * q.px + q.b))

theorem gen2_props (f : ℕ → ℚ) (hf : Valid f) : Q2Props (gen2 f) := by
  obtain ⟨h0a, h0b⟩ := hf 0
  obtain ⟨h2a, h2b⟩ := hf 2
  obtain ⟨h8a, h8b⟩ := hf 8
  have hA : 1 ≤ ⌊f 0 * 5⌋ + 1 := by
    have := floor_mul_nonneg (f 0) 5 h0a (by norm_num)
    omega
  have hK : 1 ≤ ⌊f 2 * 5⌋ + 1 := by
    have := floor_mul_nonneg (f 2) 5 h2a (by norm_num)
    omega
  have hM : 1 ≤ ⌊f 8 * 2⌋ + 1 := by
    have := floor_mul_nonneg (f 8) 2 h8a (by norm_num)
    omega
  have hprod : 1 ≤ (⌊f 0 * 5⌋ + 1) * (⌊f 2 * 5⌋ + 1) := by nlinarith
  have ha : ((⌊f 0 * 5⌋ + 1) * (if f 1 < mkRat 1 2 then 1 else -1)) ≠ 0 := by
    split_ifs <;> omega
  have hb : (if f 3 < mkRat 1 2
      then -(((⌊f 0 * 5⌋ + 1) * (if f 1 < mkRat 1 2 then 1 else -1)) * (⌊f 2 * 5⌋ + 1))
      else ((⌊f 0 * 5⌋ + 1) * (if f 1 < mkRat 1 2 then 1 else -1)) * (⌊f 2 * 5⌋ + 1)) ≠ 0 := by
    split_ifs <;> intro hcon <;> nlinarith [hprod]
  have hdvd : ((⌊f 0 * 5⌋ + 1) * (if f 1 < mkRat 1 2 then 1 else -1)) ∣
      (if f 3 < mkRat 1 2
        then -(((⌊f 0 * 5⌋ + 1) * (if f 1 < mkRat 1 2 then 1 else -1)) * (⌊f 2 * 5⌋ + 1))
        else ((⌊f 0 * 5⌋ + 1) * (if f 1 < mkRat 1 2 then 1 else -1)) * (⌊f 2 * 5⌋ + 1)) := by
    split_ifs <;> first
      | exact dvd_neg.mpr ⟨_, rfl⟩
      | exact ⟨_, rfl⟩
  by_cases ht0 : ⌊f 4 * 3⌋ = 0
  · simp only [gen2, shuffleArray, if_pos ht0]
    refine ⟨ha, hb, hdvd, ?_, by intro _; rfl,
      by intro hcon; simp at hcon, by intro hcon; simp at hcon⟩
    exact (sortC_perm f 5 _).mem_iff.mpr (List.mem_cons_self _ _)
  · by_cases ht1 : ⌊f 4 * 3⌋ = 1
    · simp only [gen2, shuffleArray, if_neg ht0, if_pos ht1]
      refine ⟨ha, hb, hdvd, ?_, by intro hcon; simp at hcon, ?_,
        by intro hcon; simp at hcon⟩
      · exact (sortC_perm f 5 _).mem_iff.mpr (List.mem_cons_self _ _)
      · intro _
        refine ⟨rfl, ?_⟩
        have hd2 := dvd_neg.mpr hdvd
        have hcancel := Int.mul_ediv_cancel' hd2
        dsimp only
        linarith [hcancel]
    · by_cases hOn : f 6 < mkRat 1 2
      · simp only [gen2, shuffleArray, if_neg ht0, if_neg ht1, if_pos hOn]
        refine ⟨ha, hb, hdvd, by simp, by intro hcon; simp at hcon,
          by intro hcon; simp at hcon, by intro _; simp⟩
      · simp only [gen2, shuffleArray, if_neg ht0, if_neg ht1, if_neg hOn]
        refine ⟨ha, hb, hdvd, by simp, by intro hcon; simp at hcon,
          by intro hcon; simp at hcon, ?_⟩
        intro _
        dsimp only
        constructor
        · intro hcon
          exact absurd hcon (by decide)
        · intro hcon
          exfalso
          have hz : (if f 7 < mkRat 1 2 then (1:ℤ) else -1) * (⌊f 8 * 2⌋ + 1) = 0 := by
            omega
          split_ifs at hz <;> omega

/-- Soundness bundle for a game-3 question: nonzero coefficients and the
stored answer occurring among the options. -/
def Q3Props (q : Q3) : Prop :=
  q.a ≠ 0 ∧ q.b ≠ 0 ∧ q.answer ∈ q.options

theorem gen3_props (f : ℕ → ℚ) (hf : Valid f) : Q3Props (gen3 f) := by
  obtain ⟨h0a, h0b⟩ := hf 0
  obtain ⟨h2a, h2b⟩ := hf 2
  have hA : 1 ≤ ⌊f 0 * 5⌋ + 1 := by
    have := floor_mul_nonneg (f 0) 5 h0a (by norm_num)
    omega
  have hB : 1 ≤ ⌊f 2 * 5⌋ + 1 := by
    have := floor_mul_nonneg (f 2) 5 h2a (by norm_num)
    omega
  have ha : ((⌊f 0 * 5⌋ + 1) * (if f 1 < mkRat 1 2 then 1 else -1)) ≠ 0 := by
    split_ifs <;> omega
  have hbne : ((⌊f 2 * 5⌋ + 1) * (if f 3 < mkRat 1 2 then 1 else -1)) ≠ 0 := by
    split_ifs <;> omega
  by_cases ht0 : ⌊f 4 * 3⌋ = 0
  · simp only [gen3, shuffleArray, if_pos ht0]
    exact ⟨ha, hbne,
      (sortC_perm f 5 _).mem_iff.mpr (List.mem_cons_self _ _)⟩
  · by_cases ht1 : ⌊f 4 * 3⌋ = 1
    · simp only [gen3, shuffleArray, if_neg ht0, if_pos ht1]
      refine ⟨ha, hbne, ?_⟩
      dsimp only
      split_ifs <;> simp
    · simp only [gen3, shuffleArray, if_neg ht0, if_neg ht1]
      refine ⟨ha, hbne, ?_⟩
      dsimp only
      apply (sortC_perm f 5 allSignOptions).mem_iff.mpr
      split_ifs <;> decide

/-- Recomputation of game 3's stored answer from the stored coefficients,
by question type: the equation string, the monotonicity choice, and the
sign string are each determined by `a` and `b` exactly as the generator
records them. -/
theorem gen3_recompute (f : ℕ → ℚ) :
    ((gen3 f).qtype = 0 →
      (gen3 f).answer = formatEquation (gen3 f).a (gen3 f).b) ∧
    ((gen3 f).qtype = 1 →
      (gen3 f).answer =
        (if 0 < (gen3 f).a then "Đồng biến" else "Nghịch biến")) ∧
    ((gen3 f).qtype = 2 →
      (gen3 f).answer =
        signOption (if 0 < (gen3 f).a then ">" else "<")
          (if 0 < (gen3 f).b then ">" else "<")) := by
  by_cases ht0 : ⌊f 4 * 3⌋ = 0
  · simp only [gen3, shuffleArray, if_pos ht0]
    exact ⟨fun _ => trivial, fun hcon => by simp at hcon,
      fun hcon => by simp at hcon⟩
  · by_cases ht1 : ⌊f 4 * 3⌋ = 1
    · simp only [gen3, shuffleArray, if_neg ht0, if_pos ht1]
      exact ⟨fun hcon => by simp at hcon, fun _ => trivial,
        fun hcon => by simp at hcon⟩
    · simp only [gen3, shuffleArray, if_neg ht0, if_neg ht1]
      exact ⟨fun hcon => by simp at hcon, fun hcon => by simp at hcon,
        fun _ => trivial⟩

/-! ### Fisher-Yates reference shuffle, and the distribution of the
source's shuffle

Modelled from the spec: §4.1 claims the option sets are shuffled with "a
Fisher-Yates-style full-array random shuffle"; no such implementation
exists in `src` (the source's `shuffleArray` is `Array.sort` with a random
comparator), so the Fisher-Yates algorithm below is modelled from the
spec's words, to be compared with the source's shuffle.  `fisherYates`
repeatedly draws an index into the remaining elements and removes the
chosen element, consuming one index draw per emitted element — the
draw-by-draw formulation of the classic swap loop. -/

def removeNth {α : Type} : List α → ℕ → List α
  | [], _ => []
  | _ :: xs, 0 => xs
  | x :: xs, n+1 => x :: removeNth xs n

def fisherYates {α : Type} [Inhabited α] : List ℕ → List α → List α
  | _, [] => []
  | [], l => l
  | j :: js, x :: xs =>
      let k := j % (x :: xs).length
      (x :: xs).getD k default :: fisherYates js (removeNth (x :: xs) k)

/-- All sequences of three fair comparator coins, as draw streams: a coin
of 1/4 makes the random comparator return a negative value, a coin of 3/4
a positive one.  Three coins are enough to drive the source's shuffle on a
3-element list, and the 8 streams are equally likely. -/
def coinStreams3 : List (ℕ → ℚ) :=
  ([mkRat 1 4, mkRat 3 4] : List ℚ).flatMap (fun c0 =>
    ([mkRat 1 4, mkRat 3 4] : List ℚ).flatMap (fun c1 =>
      ([mkRat 1 4, mkRat 3 4] : List ℚ).map (fun c2 =>
        fun i => if i = 0 then c0 else if i = 1 then c1 else c2)))

/-- The number of fair-coin sequences under which the source's shuffle maps
`l` to `target`; each of the 8 streams in `coinStreams3` is equally
likely. -/
def sortShuffleCount (l target : List ℕ) : ℕ :=
  (coinStreams3.filter (fun f => (shuffleArray f 0 l).1 = target)).length

/-- The index draws a Fisher-Yates shuffle of a 3-element list consumes:
a first index among three remaining elements, then one among two; each of
the 6 draw sequences is equally likely. -/
def fyDraws3 : List (List ℕ) :=
  ([0, 1, 2] : List ℕ).flatMap (fun j0 =>
    ([0, 1] : List ℕ).map (fun j1 => [j0, j1, 0]))

/-- The number of index-draw sequences under which the Fisher-Yates shuffle
maps `l` to `target`. -/
def fyCount (l target : List ℕ) : ℕ :=
  (fyDraws3.filter (fun js => fisherYates js l = target)).length

/-! ### The game-4 state machine: perfect run and invariants -/

/-- Answer the current question with its recorded correct index, then let
the scheduled `nextQuestion` timeout fire. -/
def playRound (s : G4State) : G4State :=
  stepG4 .advance
    (stepG4 (.answer ((s.questions.getD s.currentQIndex default).answerIndex)) s)

def playRounds : ℕ → G4State → G4State
  | 0, s => s
  | n+1, s => playRounds n (playRound s)

/-- The state after `k` completed rounds of the quiz: `k` questions
answered correctly and advanced past. -/
def midState4 (qs : List QuizQ) (k : ℕ) : G4State :=
  { questions := qs, currentQIndex := k, score := 10 * k, timeLeft := 15
    isAnswered := false, selectedOption := none, isGameOver := false }

theorem initG4_eq_mid (qs : List QuizQ) : initG4 qs = midState4 qs 0 := rfl

theorem playRound_mid (qs : List QuizQ) (hlen : qs.length = 10) (k : ℕ)
    (hk : k < 9) : playRound (midState4 qs k) = midState4 qs (k+1) := by
  simp only [playRound, stepG4, handleAnswer4, nextQuestion4, midState4]
  norm_num
  rw [if_pos (show k < qs.length - 1 by omega)]
  simp only [G4State.mk.injEq, true_and, and_true]
  omega

theorem playRounds_run (qs : List QuizQ) (hlen : qs.length = 10) :
    ∀ (n k : ℕ), k + n = 9 →
      playRounds (n+1) (midState4 qs k) = playRound (midState4 qs 9) := by
  intro n
  induction n with
  | zero =>
      intro k hk
      have hk9 : k = 9 := by omega
      subst hk9
      rfl
  | succ n ih =>
      intro k hk
      have hlt : k < 9 := by omega
      show playRounds (n+1) (playRound (midState4 qs k)) = _
      rw [playRound_mid qs hlen k hlt]
      exact ih (k+1) (by omega)

theorem playRound_final (qs : List QuizQ) (hlen : qs.length = 10) :
    playRound (midState4 qs 9) =
      { questions := qs, currentQIndex := 9, score := 100, timeLeft := 15
        isAnswered := true
        selectedOption := some ((qs.getD 9 default).answerIndex)
        isGameOver := true } := by
  simp only [playRound, stepG4, handleAnswer4, nextQuestion4, midState4]
  norm_num
  omega

/-- Reachable states of game 4: the initial state for a 10-question quiz,
closed under steps (where a reset installs another 10-question quiz). -/
inductive ReachG4 : G4State → Prop where
  | init (qs : List QuizQ) (h : qs.length = 10) : ReachG4 (initG4 qs)
  | step (s : G4State) (ev : G4Ev) (h : ReachG4 s)
      (hev : ∀ qs2, ev = .reset qs2 → qs2.length = 10) : ReachG4 (stepG4 ev s)

/-- Inductive invariant of game 4: the score is a multiple of 10, bounded by
10 points per fully handled question. -/
def InvG4 (s : G4State) : Prop :=
  10 ∣ s.score ∧ s.questions.length = 10 ∧ s.currentQIndex < 10 ∧
  s.score ≤ 10 * s.currentQIndex + (if s.isAnswered then 10 else 0)

theorem handleAnswer4_inv (k : ℤ) (s : G4State) (h : InvG4 s) :
    InvG4 (handleAnswer4 k s) := by
  obtain ⟨h1, h2, h3, h4⟩ := h
  unfold handleAnswer4
  by_cases ha : s.isAnswered = true
  · rw [if_pos ha]
    exact ⟨h1, h2, h3, h4⟩
  · rw [if_neg ha]
    rw [if_neg ha] at h4
    unfold InvG4
    dsimp only
    rw [if_pos rfl]
    by_cases hc : k = (s.questions.getD s.currentQIndex default).answerIndex
    · rw [if_pos hc]
      exact ⟨by omega, h2, h3, by omega⟩
    · rw [if_neg hc]
      exact ⟨h1, h2, h3, by omega⟩

theorem stepG4_inv (ev : G4Ev) (s : G4State) (h : InvG4 s)
    (hev : ∀ qs2, ev = .reset qs2 → qs2.length = 10) :
    InvG4 (stepG4 ev s) := by
  obtain ⟨h1, h2, h3, h4⟩ := h
  cases ev with
  | answer k =>
      simp only [stepG4]
      split_ifs
      · exact ⟨h1, h2, h3, h4⟩
      · exact handleAnswer4_inv k s ⟨h1, h2, h3, h4⟩
  | tick =>
      simp only [stepG4]
      split_ifs
      · exact ⟨h1, h2, h3, h4⟩
      · unfold InvG4
        dsimp only
        exact ⟨h1, h2, h3, h4⟩
      · exact handleAnswer4_inv (-1) s ⟨h1, h2, h3, h4⟩
  | advance =>
      simp only [stepG4]
      by_cases hcond : (s.isAnswered && !s.isGameOver) = true
      · rw [if_pos hcond]
        obtain ⟨hans, hgo⟩ :=
          (by simpa using hcond : s.isAnswered = true ∧ s.isGameOver = false)
        rw [if_pos hans] at h4
        unfold nextQuestion4
        by_cases hidx : s.currentQIndex < s.questions.length - 1
        · rw [if_pos hidx]
          refine ⟨h1, h2, ?_, ?_⟩
          · exact (by omega : s.currentQIndex + 1 < 10)
          · exact (by omega : s.score ≤ 10 * (s.currentQIndex + 1) + 0)
        · rw [if_neg hidx]
          refine ⟨h1, h2, h3, ?_⟩
          show s.score ≤ 10 * s.currentQIndex + (if s.isAnswered then 10 else 0)
          rw [if_pos hans]
          omega
      · rw [if_neg hcond]
        exact ⟨h1, h2, h3, h4⟩
  | reset qs2 =>
      have hq2 := hev qs2 rfl
      exact ⟨⟨0, rfl⟩, hq2, (by omega : (0:ℕ) < 10),
        (by omega : (0:ℕ) ≤ 10 * 0 + 0)⟩

theorem reachG4_inv (s : G4State) (h : ReachG4 s) : InvG4 s := by
  induction h with
  | init qs hq =>
      exact ⟨⟨0, rfl⟩, hq, (by omega : (0:ℕ) < 10),
        (by omega : (0:ℕ) ≤ 10 * 0 + 0)⟩
  | step s2 ev h2 hev ih => exact stepG4_inv ev s2 ih hev

/-! ### Lockout infrastructure -/

theorem locked_foldl {σ ι : Type} (step : σ → ι → σ)
    (locked : σ → Bool) (hstep : ∀ s x, locked s = true → step s x = s) :
    ∀ (l : List ι) (s : σ), locked s = true → List.foldl step s l = s := by
  intro l
  induction l with
  | nil => intro s _; rfl
  | cons x xs ih =>
      intro s hs
      simp only [List.foldl_cons, hstep s x hs]
      exact ih s hs

theorem handleSubmit_locked (t : Bool) (s : G1State)
    (h : s.isAnswered = true) : handleSubmit t s = s := by
  unfold handleSubmit
  rw [if_pos h]

theorem handleSubmit_answered (t : Bool) (s : G1State) :
    (handleSubmit t s).isAnswered = true := by
  unfold handleSubmit
  split_ifs with h <;> first
    | exact h
    | rfl

theorem handleAnswer2_locked (q : Q2) (o : String) (s : MCState)
    (h : s.isAnswered = true) : handleAnswer2 q o s = s := by
  unfold handleAnswer2
  rw [if_pos h]

theorem handleAnswer2_answered (q : Q2) (o : String) (s : MCState) :
    (handleAnswer2 q o s).isAnswered = true := by
  unfold handleAnswer2
  split_ifs with h <;> first
    | exact h
    | rfl

theorem handleAnswer3_locked (q : Q3) (o : String) (s : MCState)
    (h : s.isAnswered = true) : handleAnswer3 q o s = s := by
  unfold handleAnswer3
  rw [if_pos h]

theorem handleAnswer3_answered (q : Q3) (o : String) (s : MCState) :
    (handleAnswer3 q o s).isAnswered = true := by
  unfold handleAnswer3
  split_ifs with h <;> first
    | exact h
    | rfl

theorem handleAnswer4_locked (k : ℤ) (s : G4State)
    (h : s.isAnswered = true) : handleAnswer4 k s = s := by
  unfold handleAnswer4
  rw [if_pos h]

theorem handleAnswer4_answered (k : ℤ) (s : G4State) :
    (handleAnswer4 k s).isAnswered = true := by
  unfold handleAnswer4
  split_ifs with h <;> first
    | exact h
    | rfl

/-! ### The claims -/

/-- C3: in every game, once a question is answered (`isAnswered` set), any
further submission or option selection before the next question is
generated is a no-op — the whole state, and in particular the score, is
unchanged, for any number of repeated attempts. -/
theorem C3_answer_lockout :
    (∀ (t : Bool) (s : G1State), s.isAnswered = true → handleSubmit t s = s) ∧
    (∀ (t : Bool) (s : G1State) (ts : List Bool),
      List.foldl (fun s2 t2 => handleSubmit t2 s2) (handleSubmit t s) ts =
        handleSubmit t s) ∧
    (∀ (q : Q2) (o : String) (s : MCState), s.isAnswered = true →
      handleAnswer2 q o s = s) ∧
    (∀ (q : Q2) (o : String) (s : MCState) (os : List String),
      List.foldl (fun s2 o2 => handleAnswer2 q o2 s2) (handleAnswer2 q o s) os =
        handleAnswer2 q o s) ∧
    (∀ (q : Q3) (o : String) (s : MCState), s.isAnswered = true →
      handleAnswer3 q o s = s) ∧
    (∀ (q : Q3) (o : String) (s : MCState) (os : List String),
      List.foldl (fun s2 o2 => handleAnswer3 q o2 s2) (handleAnswer3 q o s) os =
        handleAnswer3 q o s) ∧
    (∀ (k : ℤ) (s : G4State), s.isAnswered = true → handleAnswer4 k s = s) ∧
    (∀ (k : ℤ) (s : G4State) (ks : List ℤ),
      List.foldl (fun s2 k2 => handleAnswer4 k2 s2) (handleAnswer4 k s) ks =
        handleAnswer4 k s) := by
  refine ⟨fun t s h => handleSubmit_locked t s h, ?_,
    fun q o s h => handleAnswer2_locked q o s h, ?_,
    fun q o s h => handleAnswer3_locked q o s h, ?_,
    fun k s h => handleAnswer4_locked k s h, ?_⟩
  · intro t s ts
    exact locked_foldl _ (fun s2 => s2.isAnswered)
      (fun s2 x hx => handleSubmit_locked x s2 hx) ts
      (handleSubmit t s) (handleSubmit_answered t s)
  · intro q o s os
    exact locked_foldl _ (fun s2 => s2.isAnswered)
      (fun s2 x hx => handleAnswer2_locked q x s2 hx) os
      (handleAnswer2 q o s) (handleAnswer2_answered q o s)
  · intro q o s os
    exact locked_foldl _ (fun s2 => s2.isAnswered)
      (fun s2 x hx => handleAnswer3_locked q x s2 hx) os
      (handleAnswer3 q o s) (handleAnswer3_answered q o s)
  · intro k s ks
    exact locked_foldl _ (fun s2 => s2.isAnswered)
      (fun s2 x hx => handleAnswer4_locked x s2 hx) ks
      (handleAnswer4 k s) (handleAnswer4_answered k s)

/-- A concrete locked game-1 state. -/
def g1Locked : G1State :=
  { question := { a := 1, b := 0, x := 0, y := 0 }, score := 0, timeLeft := 5
    inputValue := none, isAnswered := true, nextScheduled := false }

theorem C3_witness :
    g1Locked.isAnswered = true ∧ handleSubmit false g1Locked = g1Locked :=
  ⟨rfl, C3_answer_lockout.1 false g1Locked rfl⟩

/-- C4: in the timed games (1 and 4), the countdown reaching zero forces a
submission that is judged incorrect for every input value — even one equal
to the correct answer — with score +0, the locked state entered, and the
same transition to the next question scheduled as for an explicit wrong
answer; every generated quiz question has a nonnegative `answerIndex`, so
the timeout's `-1` can never match it. -/
theorem C4_timeout_is_incorrect :
    (∀ s : G1State, s.isAnswered = false → s.timeLeft = 0 →
      tick1 s = handleSubmit true s ∧
      handleSubmit true s =
        { s with isAnswered := true, nextScheduled := true } ∧
      (handleSubmit true s).score = s.score ∧
      (s.inputValue ≠ some s.question.y →
        handleSubmit false s =
          { s with isAnswered := true, nextScheduled := true })) ∧
    (∀ s : G4State, s.isGameOver = false → s.isAnswered = false →
      s.timeLeft = 0 → stepG4 .tick s = handleAnswer4 (-1) s) ∧
    (∀ s : G4State, s.isAnswered = false →
      0 ≤ (s.questions.getD s.currentQIndex default).answerIndex →
      (handleAnswer4 (-1) s).score = s.score ∧
      (handleAnswer4 (-1) s).isAnswered = true) ∧
    (∀ f : ℕ → ℚ, Valid f → ∀ q ∈ generateQuiz f, 0 ≤ q.answerIndex) := by
  refine ⟨?_, ?_, ?_, ?_⟩
  · intro s h1 h2
    have hsub : handleSubmit true s =
        { s with isAnswered := true, nextScheduled := true } := by
      unfold handleSubmit
      rw [if_neg (by simp [h1])]
      simp
    refine ⟨?_, hsub, by rw [hsub], ?_⟩
    · unfold tick1
      rw [if_neg (by simp [h1]), if_neg (by omega)]
    · intro hne
      unfold handleSubmit
      rw [if_neg (by simp [h1])]
      simp [hne]
  · intro s hgo hans ht
    simp only [stepG4, hgo, hans]
    rw [if_neg (by simp), if_neg (by omega)]
  · intro s hans hidx
    unfold handleAnswer4
    rw [if_neg (by simp [hans]), if_neg (by omega)]
    exact ⟨rfl, rfl⟩
  · intro f hf q hq
    exact (generateQuiz_props f hf q hq).2.2.2.1

/-- A concrete unanswered game-1 state at the countdown's end whose input
field holds exactly the correct answer. -/
def g1Timeout : G1State :=
  { question := { a := 3, b := -2, x := 4, y := 10 }, score := 0, timeLeft := 0
    inputValue := some 10, isAnswered := false, nextScheduled := false }

theorem C4_witness :
    g1Timeout.isAnswered = false ∧ g1Timeout.timeLeft = 0 ∧
    g1Timeout.inputValue = some g1Timeout.question.y ∧
    (handleSubmit true g1Timeout).score = g1Timeout.score :=
  ⟨rfl, rfl, rfl, (C4_timeout_is_incorrect.1 g1Timeout rfl rfl).2.2.1⟩

/-- C5: whenever no API credential is configured or the remote feedback
call throws, `getFeedback` installs one of exactly two fixed fallback
strings, chosen by the correctness flag; the result always carries a
nonempty message and the requested classification tag, and no error state
exists at all (the adapter is a total function into `FeedbackState`). -/
theorem C5_feedback_fallback (hasKey : Bool) (remote : Except Unit String)
    (ftype : String) (h : hasKey = false ∨ remote = .error ()) :
    (getFeedback hasKey remote ftype).message =
      (if ftype = "correct" then correctFallback else incorrectFallback) ∧
    ((getFeedback hasKey remote ftype).message = correctFallback ∨
      (getFeedback hasKey remote ftype).message = incorrectFallback) ∧
    (getFeedback hasKey remote ftype).message ≠ "" ∧
    (getFeedback hasKey remote ftype).ftype = ftype := by
  have hm : (getFeedback hasKey remote ftype).message =
      (if ftype = "correct" then correctFallback else incorrectFallback) ∧
      (getFeedback hasKey remote ftype).ftype = ftype := by
    rcases h with h | h
    · subst h
      exact ⟨rfl, rfl⟩
    · subst h
      cases hasKey
      · exact ⟨rfl, rfl⟩
      · exact ⟨rfl, rfl⟩
  refine ⟨hm.1, ?_, ?_, hm.2⟩
  · rw [hm.1]
    split_ifs
    · exact Or.inl rfl
    · exact Or.inr rfl
  · rw [hm.1]
    split_ifs
    · exact (by decide : correctFallback ≠ "")
    · exact (by decide : incorrectFallback ≠ "")

theorem C5_witness :
    (getFeedback false (Except.error ()) "correct").message =
      correctFallback ∧
    (getFeedback true (Except.error ()) "incorrect").message =
      incorrectFallback :=
  ⟨((C5_feedback_fallback false (Except.error ()) "correct"
      (Or.inl rfl)).1).trans (by decide),
   ((C5_feedback_fallback true (Except.error ()) "incorrect"
      (Or.inr rfl)).1).trans (by decide)⟩

/-- C6: the x-intercept divisions (`-b/a` in game 2's question type 1 and
the quiz's question type 4) always have a nonzero divisor: the generators
never produce a zero slope; moreover the slope even divides the intercept
coefficient exactly, and game 2's rejection loop guard `b ≠ 0` holds after
a single iteration. -/
theorem C6_intercept_division_safe (f : ℕ → ℚ) (hf : Valid f) :
    (gen2 f).a ≠ 0 ∧ (gen2 f).b ≠ 0 ∧ (gen2 f).a ∣ (gen2 f).b ∧
    (∀ q ∈ generateQuiz f, q.qa ≠ 0 ∧ (q.qtype = 4 → q.qa ∣ q.qb)) := by
  obtain ⟨ha, hb, hd, _, _, _, _⟩ := gen2_props f hf
  refine ⟨ha, hb, hd, ?_⟩
  intro q hq
  obtain ⟨p1, p2, _⟩ := generateQuiz_props f hf q hq
  exact ⟨p1, p2⟩

theorem C6_witness :
    Valid zeroStream ∧ (gen2 zeroStream).a ≠ 0 :=
  ⟨zeroStream_valid, (C6_intercept_division_safe zeroStream zeroStream_valid).1⟩

/-- C1: for every question generated by any of the four generators,
recomputing the correct answer from the stored data equals the stored
answer: game 1's `y` equals `a*x + b`; game 2's answer string is rebuilt
from the stored `a`, `b` (with the recorded point lying on the line for
the membership type); game 3's answer string (equation, monotonicity or
sign pattern) is rebuilt from the stored `a`, `b`; every quiz question's
option at the recorded `answerIndex` equals the answer string recomputed
from the stored coefficients. -/
theorem C1_recompute_answer (f : ℕ → ℚ) (hf : Valid f) :
    (gen1 f).y = (gen1 f).a * (gen1 f).x + (gen1 f).b ∧
    ((gen2 f).qtype = 0 →
      (gen2 f).answer = "(0, " ++ toString (gen2 f).b ++ ")") ∧
    ((gen2 f).qtype = 1 →
      (gen2 f).answer = "(" ++ toString (-(gen2 f).b / (gen2 f).a) ++ ", 0)" ∧
      (gen2 f).a * (-(gen2 f).b / (gen2 f).a) + (gen2 f).b = 0) ∧
    ((gen2 f).qtype = 2 →
      ((gen2 f).answer = "Có" ↔
        (gen2 f).py = (gen2 f).a * (gen2 f).px + (gen2 f).b)) ∧
    ((gen3 f).qtype = 0 →
      (gen3 f).answer = formatEquation (gen3 f).a (gen3 f).b) ∧
    ((gen3 f).qtype = 1 →
      (gen3 f).answer =
        (if 0 < (gen3 f).a then "Đồng biến" else "Nghịch biến")) ∧
    ((gen3 f).qtype = 2 →
      (gen3 f).answer =
        signOption (if 0 < (gen3 f).a then ">" else "<")
          (if 0 < (gen3 f).b then ">" else "<")) ∧
    (∀ q ∈ generateQuiz f, 0 ≤ q.answerIndex ∧
      q.options.getD q.answerIndex.toNat noStr = quizCorrectString q ∧
      (q.qtype = 4 → q.qa * (-q.qb / q.qa) + q.qb = 0)) := by
  obtain ⟨_, _, _, _, p0, p1, p2⟩ := gen2_props f hf
  obtain ⟨g0, g1, g2⟩ := gen3_recompute f
  refine ⟨rfl, p0, p1, p2, g0, g1, g2, ?_⟩
  intro q hq
  obtain ⟨_, _, _, q4, _, q6, q7⟩ := generateQuiz_props f hf q hq
  exact ⟨q4, q6, q7⟩

theorem C1_witness :
    Valid zeroStream ∧
    (gen1 zeroStream).y =
      (gen1 zeroStream).a * (gen1 zeroStream).x + (gen1 zeroStream).b :=
  ⟨zeroStream_valid, (C1_recompute_answer zeroStream zeroStream_valid).1⟩

/-- C2 (amended): every generated multiple-choice question contains its
recorded correct answer among the options — at least once, not exactly
once — and the quiz's `answerIndex` is a valid position holding the correct
answer.  (The original claim's "exactly once / no duplicates" fails; see
the counterexample.) -/
theorem C2_correct_option_present (f : ℕ → ℚ) (hf : Valid f) :
    (gen2 f).answer ∈ (gen2 f).options ∧
    (gen3 f).answer ∈ (gen3 f).options ∧
    (∀ q ∈ generateQuiz f, 0 ≤ q.answerIndex ∧
      q.answerIndex.toNat < q.options.length ∧
      q.options.getD q.answerIndex.toNat noStr = quizCorrectString q) := by
  refine ⟨(gen2_props f hf).2.2.2.1, (gen3_props f hf).2.2, ?_⟩
  intro q hq
  obtain ⟨_, _, _, q4, q5, q6, _⟩ := generateQuiz_props f hf q hq
  exact ⟨q4, q5, q6⟩

theorem C2_witness :
    Valid zeroStream ∧ (gen2 zeroStream).answer ∈ (gen2 zeroStream).options :=
  ⟨zeroStream_valid,
    (C2_correct_option_present zeroStream zeroStream_valid).1⟩

/-- A valid draw sequence that makes game 2 generate `a = 3`, `b = 3` and
question type 0, whose option array is built from
`[(0, 3), (3, 0), (0, 3), (3, 0)]`. -/
def dupStream : ℕ → ℚ :=
  fun i => if i = 0 then mkRat 1 2 else if i = 3 then mkRat 3 4 else 0

theorem dupStream_valid : Valid dupStream := by
  intro i
  unfold dupStream
  split_ifs <;> constructor <;>
    first
    | (rw [Rat.mkRat_eq_div]; norm_num)
    | norm_num

theorem gen2_dupStream_eval :
    gen2 dupStream =
      { a := 3, b := 3
        options := (sortC dupStream 5 ["(0, 3)", "(3, 0)", "(0, 3)", "(3, 0)"]).1
        answer := "(0, 3)", promptText := q2prompt0
        qtype := 0, px := 0, py := 0 } := by
  have e0 : ⌊dupStream 0 * 5⌋ = (2:ℤ) := by
    rw [show dupStream 0 = mkRat 1 2 from rfl, Rat.mkRat_eq_div]
    rw [Int.floor_eq_iff]
    constructor <;> norm_num
  have e2 : ⌊dupStream 2 * 5⌋ = (0:ℤ) := by
    rw [show dupStream 2 = 0 from rfl]
    norm_num
  have e4 : ⌊dupStream 4 * 3⌋ = (0:ℤ) := by
    rw [show dupStream 4 = 0 from rfl]
    norm_num
  have s1 : dupStream 1 < mkRat 1 2 := by
    rw [show dupStream 1 = 0 from rfl, Rat.mkRat_eq_div]
    norm_num
  have s3 : ¬ (dupStream 3 < mkRat 1 2) := by
    rw [show dupStream 3 = mkRat 3 4 from rfl, Rat.mkRat_eq_div,
      Rat.mkRat_eq_div]
    norm_num
  simp only [gen2, shuffleArray, e0, e2, e4, if_pos s1, if_neg s3, if_pos rfl]
  norm_num
  exact ⟨rfl, rfl⟩

/-- C2 counterexample: for the valid draw sequence `dupStream`, game 2
generates a y-intercept question with `a = b = 3` whose correct answer
"(0, 3)" occurs twice among the options, so the option list is not
duplicate-free and does not contain the correct answer exactly once. -/
theorem C2_counterexample :
    (gen2 dupStream).options.count (gen2 dupStream).answer = 2 ∧
    ¬ (gen2 dupStream).options.Nodup := by
  have hcount : (gen2 dupStream).options.count (gen2 dupStream).answer = 2 := by
    rw [gen2_dupStream_eval]
    rw [(sortC_perm dupStream 5
      ["(0, 3)", "(3, 0)", "(0, 3)", "(3, 0)"]).count_eq]
    decide
  refine ⟨hcount, fun hnd => ?_⟩
  have := List.nodup_iff_count_le_one.mp hnd (gen2 dupStream).answer
  omega

/-- C7 (amended): the shuffle returns a permutation of its input — the
multiset of options is preserved exactly. -/
theorem C7_shuffle_is_permutation {α : Type} (f : ℕ → ℚ) (i : ℕ)
    (l : List α) :
    (shuffleArray f i l).1.Perm l ∧
    ((shuffleArray f i l).1 : Multiset α) = (l : Multiset α) :=
  ⟨sortC_perm f i l, Multiset.coe_eq_coe.mpr (sortC_perm f i l)⟩

/-- C7 counterexample: the source's shuffle is not a Fisher-Yates shuffle.
Over the 8 equally likely fair-coin sequences, the source's
comparator-sort shuffle of `[0, 1, 2]` produces the identity permutation
with probability 2/8, while the spec's Fisher-Yates shuffle produces every
permutation with probability 1/6 over its 6 equally likely draw
sequences — the distributions differ (12 = 2·6 ≠ 1·8 = 8). -/
theorem C7_counterexample :
    sortShuffleCount [0, 1, 2] [0, 1, 2] * 6 ≠
      fyCount [0, 1, 2] [0, 1, 2] * 8 ∧
    sortShuffleCount [0, 1, 2] [0, 1, 2] ≠
      sortShuffleCount [0, 1, 2] [1, 0, 2] ∧
    fyCount [0, 1, 2] [0, 1, 2] = 1 ∧ fyCount [0, 1, 2] [0, 2, 1] = 1 ∧
    fyCount [0, 1, 2] [1, 0, 2] = 1 ∧ fyCount [0, 1, 2] [1, 2, 0] = 1 ∧
    fyCount [0, 1, 2] [2, 0, 1] = 1 ∧ fyCount [0, 1, 2] [2, 1, 0] = 1 := by
  decide

/-- C8: answering all 10 quiz questions correctly yields final score 100,
a displayed count of 10 correct out of 10, and the terminal game-over
state, from which no event but an explicit reset changes the state. -/
theorem C8_perfect_quiz (qs : List QuizQ) (hlen : qs.length = 10)
    (hidx : ∀ q ∈ qs, 0 ≤ q.answerIndex) :
    (playRounds 10 (initG4 qs)).score = 100 ∧
    quizNumCorrect (playRounds 10 (initG4 qs)) = 10 ∧
    (playRounds 10 (initG4 qs)).isGameOver = true ∧
    (∀ k, stepG4 (.answer k) (playRounds 10 (initG4 qs)) =
      playRounds 10 (initG4 qs)) ∧
    stepG4 .tick (playRounds 10 (initG4 qs)) = playRounds 10 (initG4 qs) ∧
    stepG4 .advance (playRounds 10 (initG4 qs)) = playRounds 10 (initG4 qs) ∧
    (∀ qs2, stepG4 (.reset qs2) (playRounds 10 (initG4 qs)) = initG4 qs2) := by
  have hrun : playRounds 10 (initG4 qs) = playRound (midState4 qs 9) := by
    rw [initG4_eq_mid]
    exact playRounds_run qs hlen 9 0 rfl
  rw [hrun, playRound_final qs hlen]
  refine ⟨rfl, by norm_num [quizNumCorrect], rfl, ?_, rfl, rfl,
    fun qs2 => rfl⟩
  intro k
  rfl

/-- A concrete 10-question quiz for instantiating the quiz theorems. -/
def qs0 : List QuizQ := List.replicate 10 default

theorem C8_witness :
    qs0.length = 10 ∧ (playRounds 10 (initG4 qs0)).score = 100 ∧
    quizNumCorrect (playRounds 10 (initG4 qs0)) = 10 ∧
    (playRounds 10 (initG4 qs0)).isGameOver = true := by
  have h := C8_perfect_quiz qs0 (by simp [qs0]) (by
    intro q hq
    rw [List.eq_of_mem_replicate hq]
    decide)
  exact ⟨by simp [qs0], h.1, h.2.1, h.2.2.1⟩

/-- C9: the generators are deterministic in the consumed random draws: two
runs whose draw streams agree on the draws the generator can consume
produce identical questions — identical coefficients, answers and option
lists, in order.  (Game 1 reads at most 3 draws, game 3 at most 21, the
10-question quiz at most 240.) -/
theorem C9_deterministic (f g : ℕ → ℚ) :
    ((∀ j, j < 3 → f j = g j) → gen1 f = gen1 g) ∧
    ((∀ j, j < 21 → f j = g j) → gen3 f = gen3 g) ∧
    ((∀ j, j < 240 → f j = g j) → generateQuiz f = generateQuiz g) :=
  ⟨gen1_agree f g, gen3_agree f g, generateQuiz_agree f g⟩

theorem C9_witness :
    gen1 zeroStream = gen1 zeroStream ∧
    gen3 zeroStream = gen3 zeroStream ∧
    generateQuiz zeroStream = generateQuiz zeroStream :=
  ⟨(C9_deterministic zeroStream zeroStream).1 (fun _ _ => rfl),
   (C9_deterministic zeroStream zeroStream).2.1 (fun _ _ => rfl),
   (C9_deterministic zeroStream zeroStream).2.2 (fun _ _ => rfl)⟩

theorem handleSubmit_score (t : Bool) (s : G1State) :
    (handleSubmit t s).score = s.score ∨
    ((handleSubmit t s).score = s.score + 10 ∧ s.isAnswered = false ∧
      t = false ∧ s.inputValue = some s.question.y) := by
  unfold handleSubmit
  by_cases hans : s.isAnswered = true
  · rw [if_pos hans]
    exact Or.inl rfl
  · rw [if_neg hans]
    by_cases hc : (!t && decide (s.inputValue = some s.question.y)) = true
    · right
      simp only [Bool.and_eq_true, Bool.not_eq_true', decide_eq_true_eq] at hc
      refine ⟨?_, by simpa using hans, hc.1, hc.2⟩
      show (if (!t && decide (s.inputValue = some s.question.y)) = true
        then s.score + 10 else s.score) = s.score + 10
      rw [if_pos (by simp [hc.1, hc.2])]
    · left
      show (if (!t && decide (s.inputValue = some s.question.y)) = true
        then s.score + 10 else s.score) = s.score
      rw [if_neg hc]

theorem handleAnswer4_score (k : ℤ) (s : G4State) :
    (handleAnswer4 k s).score = s.score ∨
    ((handleAnswer4 k s).score = s.score + 10 ∧ s.isAnswered = false ∧
      k = (s.questions.getD s.currentQIndex default).answerIndex) := by
  unfold handleAnswer4
  by_cases hans : s.isAnswered = true
  · rw [if_pos hans]
    exact Or.inl rfl
  · rw [if_neg hans]
    by_cases hc : k = (s.questions.getD s.currentQIndex default).answerIndex
    · right
      refine ⟨?_, by simpa using hans, hc⟩
      show (if k = (s.questions.getD s.currentQIndex default).answerIndex
        then s.score + 10 else s.score) = s.score + 10
      rw [if_pos hc]
    · left
      show (if k = (s.questions.getD s.currentQIndex default).answerIndex
        then s.score + 10 else s.score) = s.score
      rw [if_neg hc]

theorem handleAnswer4_score_mono (k : ℤ) (s : G4State) :
    s.score ≤ (handleAnswer4 k s).score := by
  rcases handleAnswer4_score k s with h | h
  · omega
  · omega

theorem handleAnswer2_score (q : Q2) (o : String) (s : MCState) :
    (handleAnswer2 q o s).score = s.score ∨
    ((handleAnswer2 q o s).score = s.score + 10 ∧ s.isAnswered = false ∧
      o = q.answer) := by
  unfold handleAnswer2
  by_cases hans : s.isAnswered = true
  · rw [if_pos hans]
    exact Or.inl rfl
  · rw [if_neg hans]
    by_cases hc : o = q.answer
    · right
      refine ⟨?_, by simpa using hans, hc⟩
      show (if o = q.answer then s.score + 10 else s.score) = s.score + 10
      rw [if_pos hc]
    · left
      show (if o = q.answer then s.score + 10 else s.score) = s.score
      rw [if_neg hc]

theorem handleAnswer3_score (q : Q3) (o : String) (s : MCState) :
    (handleAnswer3 q o s).score = s.score ∨
    ((handleAnswer3 q o s).score = s.score + 10 ∧ s.isAnswered = false ∧
      o = q.answer) := by
  unfold handleAnswer3
  by_cases hans : s.isAnswered = true
  · rw [if_pos hans]
    exact Or.inl rfl
  · rw [if_neg hans]
    by_cases hc : o = q.answer
    · right
      refine ⟨?_, by simpa using hans, hc⟩
      show (if o = q.answer then s.score + 10 else s.score) = s.score + 10
      rw [if_pos hc]
    · left
      show (if o = q.answer then s.score + 10 else s.score) = s.score
      rw [if_neg hc]

theorem stepG4_score_mono (ev : G4Ev) (s : G4State)
    (hne : ∀ qs2, ev ≠ G4Ev.reset qs2) : s.score ≤ (stepG4 ev s).score := by
  cases ev with
  | answer k =>
      simp only [stepG4]
      split_ifs
      · exact le_refl _
      · exact handleAnswer4_score_mono k s
  | tick =>
      simp only [stepG4]
      split_ifs
      · exact le_refl _
      · exact le_refl _
      · exact handleAnswer4_score_mono (-1) s
  | advance =>
      simp only [stepG4, nextQuestion4]
      split_ifs
      · exact le_refl _
      · exact le_refl _
      · exact le_refl _
  | reset qs2 => exact absurd rfl (hne qs2)

/-! ### Initial states and reachability for games 1-3

Game 1's initial state (lines 207-211): score 0, 15 seconds, empty input,
not answered; the first `generateQuestion` effect installs a question.
Games 2 and 3 share the same shape (lines 281-284 and 381-384): score 0,
not answered, no selection.  Games 1-3 have no reset button; leaving to
the menu destroys the component, ending the instance's lifetime. -/

def initG1 (q : Q1) : G1State :=
  { question := q, score := 0, timeLeft := 15, inputValue := none
    isAnswered := false, nextScheduled := false }

def initMC : MCState :=
  { score := 0, isAnswered := false, selectedOption := none }

/-- Events of game 1: form submission (line 268), a timer tick
(lines 230-238), typing in the input (disabled once answered, line 269),
and the scheduled `generateQuestion` (lines 214-224), which installs a
fresh question and clears input, lockout and timer but keeps the score. -/
inductive G1Ev where
  | submit : G1Ev
  | tick : G1Ev
  | setInput (v : Option ℤ) : G1Ev
  | newQuestion (q : Q1) : G1Ev

def stepG1 : G1Ev → G1State → G1State
  | .submit, s => handleSubmit false s
  | .tick, s => tick1 s
  | .setInput v, s => if s.isAnswered then s else { s with inputValue := v }
  | .newQuestion q, s =>
      { s with
          question := q
          inputValue := none
          isAnswered := false
          timeLeft := 15
          nextScheduled := false }

inductive ReachG1 : G1State → Prop where
  | init (q : Q1) : ReachG1 (initG1 q)
  | step (s : G1State) (ev : G1Ev) (h : ReachG1 s) : ReachG1 (stepG1 ev s)

/-- Events of game 2: clicking an option (the event carries the question
currently held in the component's `question` state, line 330), and the
scheduled `generateQuestion` (lines 287-290), which clears lockout and
selection but keeps the score. -/
inductive MCEv2 where
  | select (q : Q2) (opt : String) : MCEv2
  | newQuestion : MCEv2

def stepMC2 : MCEv2 → MCState → MCState
  | .select q opt, s => handleAnswer2 q opt s
  | .newQuestion, s => { s with isAnswered := false, selectedOption := none }

inductive ReachMC2 : MCState → Prop where
  | init : ReachMC2 initMC
  | step (s : MCState) (ev : MCEv2) (h : ReachMC2 s) : ReachMC2 (stepMC2 ev s)

/-- Events of game 3, mirroring game 2's (lines 435, 389-392). -/
inductive MCEv3 where
  | select (q : Q3) (opt : String) : MCEv3
  | newQuestion : MCEv3

def stepMC3 : MCEv3 → MCState → MCState
  | .select q opt, s => handleAnswer3 q opt s
  | .newQuestion, s => { s with isAnswered := false, selectedOption := none }

inductive ReachMC3 : MCState → Prop where
  | init : ReachMC3 initMC
  | step (s : MCState) (ev : MCEv3) (h : ReachMC3 s) : ReachMC3 (stepMC3 ev s)

theorem tick1_score (s : G1State) :
    (tick1 s).score = s.score ∨ (tick1 s).score = s.score + 10 := by
  unfold tick1
  split_ifs
  · exact Or.inl rfl
  · exact Or.inl rfl
  · rcases handleSubmit_score true s with h | h
    · exact Or.inl h
    · exact Or.inr h.1

theorem stepG1_score (ev : G1Ev) (s : G1State) :
    (stepG1 ev s).score = s.score ∨ (stepG1 ev s).score = s.score + 10 := by
  cases ev with
  | submit =>
      rcases handleSubmit_score false s with h | h
      · exact Or.inl h
      · exact Or.inr h.1
  | tick => exact tick1_score s
  | setInput v =>
      simp only [stepG1]
      split_ifs
      · exact Or.inl rfl
      · exact Or.inl rfl
  | newQuestion q => exact Or.inl rfl

theorem reachG1_dvd (s : G1State) (h : ReachG1 s) : 10 ∣ s.score := by
  induction h with
  | init q => exact ⟨0, rfl⟩
  | step s2 ev h2 ih =>
      rcases stepG1_score ev s2 with h | h <;> omega

theorem stepMC2_score (ev : MCEv2) (s : MCState) :
    (stepMC2 ev s).score = s.score ∨ (stepMC2 ev s).score = s.score + 10 := by
  cases ev with
  | select q opt =>
      rcases handleAnswer2_score q opt s with h | h
      · exact Or.inl h
      · exact Or.inr h.1
  | newQuestion => exact Or.inl rfl

theorem reachMC2_dvd (s : MCState) (h : ReachMC2 s) : 10 ∣ s.score := by
  induction h with
  | init => exact ⟨0, rfl⟩
  | step s2 ev h2 ih =>
      rcases stepMC2_score ev s2 with h | h <;> omega

theorem stepMC3_score (ev : MCEv3) (s : MCState) :
    (stepMC3 ev s).score = s.score ∨ (stepMC3 ev s).score = s.score + 10 := by
  cases ev with
  | select q opt =>
      rcases handleAnswer3_score q opt s with h | h
      · exact Or.inl h
      · exact Or.inr h.1
  | newQuestion => exact Or.inl rfl

theorem reachMC3_dvd (s : MCState) (h : ReachMC3 s) : 10 ∣ s.score := by
  induction h with
  | init => exact ⟨0, rfl⟩
  | step s2 ev h2 ih =>
      rcases stepMC3_score ev s2 with h | h <;> omega

/-- C10: in every game instance the score starts at 0 and changes only by
+10 on a correctly judged answer, so at every reachable state of every
game the score is a (non-negative, being a natural number) multiple of 10
and never decreases under any event of the instance's lifetime (the quiz's
reset starts a new run); in the quiz every reachable score is at most 100,
so the displayed number of correct answers `score / 10` is an integer
between 0 and 10. -/
theorem C10_score_invariant :
    (∀ q : Q1, (initG1 q).score = 0) ∧
    initMC.score = 0 ∧
    (∀ qs : List QuizQ, (initG4 qs).score = 0) ∧
    (∀ s : G1State, ReachG1 s → 10 ∣ s.score) ∧
    (∀ s : MCState, ReachMC2 s → 10 ∣ s.score) ∧
    (∀ s : MCState, ReachMC3 s → 10 ∣ s.score) ∧
    (∀ s : G4State, ReachG4 s →
      10 ∣ s.score ∧ s.score ≤ 100 ∧ quizNumCorrect s ≤ 10) ∧
    (∀ (s : G1State) (ev : G1Ev), s.score ≤ (stepG1 ev s).score) ∧
    (∀ (s : MCState) (ev : MCEv2), s.score ≤ (stepMC2 ev s).score) ∧
    (∀ (s : MCState) (ev : MCEv3), s.score ≤ (stepMC3 ev s).score) ∧
    (∀ (s : G4State) (ev : G4Ev), (∀ qs2, ev ≠ G4Ev.reset qs2) →
      s.score ≤ (stepG4 ev s).score) ∧
    (∀ (t : Bool) (s : G1State), (handleSubmit t s).score = s.score ∨
      ((handleSubmit t s).score = s.score + 10 ∧ s.isAnswered = false ∧
        t = false ∧ s.inputValue = some s.question.y)) ∧
    (∀ (s : G1State), s.score ≤ (tick1 s).score) ∧
    (∀ (q : Q2) (o : String) (s : MCState),
      (handleAnswer2 q o s).score = s.score ∨
      ((handleAnswer2 q o s).score = s.score + 10 ∧ s.isAnswered = false ∧
        o = q.answer)) ∧
    (∀ (q : Q3) (o : String) (s : MCState),
      (handleAnswer3 q o s).score = s.score ∨
      ((handleAnswer3 q o s).score = s.score + 10 ∧ s.isAnswered = false ∧
        o = q.answer)) ∧
    (∀ (k : ℤ) (s : G4State), (handleAnswer4 k s).score = s.score ∨
      ((handleAnswer4 k s).score = s.score + 10 ∧ s.isAnswered = false ∧
        k = (s.questions.getD s.currentQIndex default).answerIndex)) := by
  refine ⟨fun q => rfl, rfl, fun qs => rfl, reachG1_dvd, reachMC2_dvd,
    reachMC3_dvd, ?_, ?_, ?_, ?_,
    fun s ev hne => stepG4_score_mono ev s hne, handleSubmit_score, ?_,
    handleAnswer2_score, handleAnswer3_score, handleAnswer4_score⟩
  · intro s hs
    obtain ⟨h1, _, h3, h4⟩ := reachG4_inv s hs
    have hb : s.score ≤ 100 := by
      split_ifs at h4 <;> omega
    refine ⟨h1, hb, ?_⟩
    unfold quizNumCorrect
    omega
  · intro s ev
    rcases stepG1_score ev s with h | h <;> omega
  · intro s ev
    rcases stepMC2_score ev s with h | h <;> omega
  · intro s ev
    rcases stepMC3_score ev s with h | h <;> omega
  · intro s
    unfold tick1
    split_ifs
    · exact le_refl _
    · exact le_refl _
    · rcases handleSubmit_score true s with h | h
      · omega
      · omega

theorem C10_witness :
    (initG1 (gen1 zeroStream)).score = 0 ∧ ReachG1 (initG1 (gen1 zeroStream)) ∧
    10 ∣ (initG1 (gen1 zeroStream)).score ∧
    ReachMC2 initMC ∧ 10 ∣ initMC.score ∧
    ReachMC3 initMC ∧ 10 ∣ initMC.score ∧
    ReachG4 (initG4 qs0) ∧ 10 ∣ (initG4 qs0).score ∧
    (initG4 qs0).score ≤ 100 ∧ quizNumCorrect (initG4 qs0) ≤ 10 := by
  have hr1 : ReachG1 (initG1 (gen1 zeroStream)) := ReachG1.init _
  have hr2 : ReachMC2 initMC := ReachMC2.init
  have hr3 : ReachMC3 initMC := ReachMC3.init
  have hr4 : ReachG4 (initG4 qs0) := ReachG4.init qs0 (by simp [qs0])
  obtain ⟨h1, h2, h3⟩ := C10_score_invariant.2.2.2.2.2.2.1 (initG4 qs0) hr4
  exact ⟨C10_score_invariant.1 (gen1 zeroStream), hr1,
    C10_score_invariant.2.2.2.1 _ hr1, hr2,
    C10_score_invariant.2.2.2.2.1 _ hr2, hr3,
    C10_score_invariant.2.2.2.2.2.1 _ hr3, hr4, h1, h2, h3⟩
